import Mathlib

/-!
Shallow embedding of the vaulta-simulator core (src/types.rs, src/strategy.rs,
src/simulator.rs, src/risk.rs, src/monte_carlo.rs).

Modelling conventions:
* `rust_decimal::Decimal` monetary values and `f64` ratios are both embedded as `ℚ`
  (exact arithmetic; the claims under study do not depend on rounding of either type).
  Division by zero yields the junk value `0` in `ℚ`; where that matters a theorem
  carries an explicit nonzero hypothesis.
* `HashMap<String, _>` is embedded as an association list `List (String × _)` with
  lookup / replace-or-append insert / erase helpers.  The program only reads maps via
  key lookup, membership and value sums, all of which are order-insensitive here.
* Wall-clock reads (`OffsetDateTime::now_utc()`) are embedded as an explicit integer
  timestamp argument; random draws (`rng.gen()`) as an explicit shock argument.
-/

deriving instance DecidableEq for Except

namespace Vaulta

/-- Association-list lookup, embedding `HashMap::get`. -/
def mapLookup {β : Type} (k : String) : List (String × β) → Option β
  | [] => none
  | kv :: rest => if kv.1 = k then some kv.2 else mapLookup k rest

/-- Association-list membership, embedding `HashMap::contains_key`. -/
def mapContains {β : Type} (k : String) (l : List (String × β)) : Bool :=
  (mapLookup k l).isSome

/-- Association-list insert, embedding `HashMap::insert` (replace if present, add if absent). -/
def mapInsert {β : Type} (k : String) (v : β) (l : List (String × β)) : List (String × β) :=
  if mapContains k l then l.map (fun kv => if kv.1 = k then (k, v) else kv)
  else l ++ [(k, v)]

/-- Association-list removal, embedding `HashMap::remove`'s effect on the map. -/
def mapErase {β : Type} (k : String) (l : List (String × β)) : List (String × β) :=
  l.filter (fun kv => kv.1 != k)

/-- Association-list in-place update of one entry, embedding `HashMap::get_mut` mutation. -/
def mapModify {β : Type} (k : String) (f : β → β) (l : List (String × β)) : List (String × β) :=
  l.map (fun kv => if kv.1 = k then (kv.1, f kv.2) else kv)

/-- Embedding of `types.rs::AssetType`. -/
inductive AssetType where
  | Crypto
  | DeFiPool
  | RWABond
  | RWACredit
  | Stablecoin
  | Other
deriving DecidableEq, Repr

/-- Embedding of `types.rs::Asset` (prices, volatilities and yields as exact rationals). -/
structure Asset where
  symbol : String
  name : String
  asset_type : AssetType
  current_price : ℚ
  volatility : ℚ
  yield_rate : ℚ
deriving DecidableEq, Repr

/-- Embedding of `types.rs::Position`. -/
structure Position where
  asset : Asset
  quantity : ℚ
  entry_price : ℚ
  current_value : ℚ
deriving DecidableEq, Repr

/-- Embedding of `Position::new`: the current value is derived as quantity × price. -/
def Position.new (asset : Asset) (quantity : ℚ) (entry_price : ℚ) : Position :=
  { asset := asset, quantity := quantity, entry_price := entry_price,
    current_value := quantity * asset.current_price }

/-- Embedding of `Position::update_price`: price and derived value change together. -/
def Position.update_price (p : Position) (new_price : ℚ) : Position :=
  { p with asset := { p.asset with current_price := new_price },
           current_value := p.quantity * new_price }

/-- Embedding of `types.rs::Portfolio`.  The wall-clock `timestamp` field is omitted:
no modelled operation reads it and all claims are independent of it. -/
structure Portfolio where
  positions : List (String × Position)
  cash : ℚ
  total_value : ℚ
deriving DecidableEq, Repr

/-- Sum of the `current_value` of all held positions, as iterated by
`Portfolio::update_total_value` and `Simulator::record_snapshot`. -/
def positionsValue (l : List (String × Position)) : ℚ :=
  (l.map (fun kv => kv.2.current_value)).sum

/-- Embedding of `Portfolio::new`. -/
def Portfolio.new (initial_cash : ℚ) : Portfolio :=
  { positions := [], cash := initial_cash, total_value := initial_cash }

/-- Embedding of `Portfolio::update_total_value`. -/
def Portfolio.update_total_value (p : Portfolio) : Portfolio :=
  { p with total_value := p.cash + positionsValue p.positions }

/-- Embedding of `Portfolio::add_position`: deduct the position's current value from
cash, insert it under its symbol, then recompute the cached total. -/
def Portfolio.add_position (p : Portfolio) (position : Position) : Portfolio :=
  Portfolio.update_total_value
    { p with cash := p.cash - position.current_value,
             positions := mapInsert position.asset.symbol position p.positions }

/-- Embedding of `Portfolio::remove_position`: returns the removed position (if any)
together with the successor portfolio state. -/
def Portfolio.remove_position (p : Portfolio) (symbol : String) : Option Position × Portfolio :=
  match mapLookup symbol p.positions with
  | some position =>
      (some position,
       Portfolio.update_total_value
         { p with positions := mapErase symbol p.positions,
                  cash := p.cash + position.current_value })
  | none => (none, p)

/-- Embedding of `Portfolio::update_prices`: apply each price update to the matching
position (if held), then recompute the cached total. -/
def Portfolio.update_prices (p : Portfolio) (price_updates : List (String × ℚ)) : Portfolio :=
  let positions :=
    price_updates.foldl
      (fun ps su => mapModify su.1 (fun pos => pos.update_price su.2) ps)
      p.positions
  Portfolio.update_total_value { p with positions := positions }

/-- Embedding of `types.rs::PortfolioSnapshot`. -/
structure PortfolioSnapshot where
  timestamp : ℤ
  total_value : ℚ
  cash : ℚ
  positions_value : ℚ
  positions_count : ℕ
deriving DecidableEq, Repr

/-- Embedding of `types.rs::RoutingDecision` (`risk_score`, an advisory `f64`, as `ℚ`). -/
structure RoutingDecision where
  timestamp : ℤ
  source_asset : String
  target_asset : String
  amount : ℚ
  expected_yield : ℚ
  risk_score : ℚ
  execution_cost : ℚ
deriving DecidableEq, Repr

/-- Market price map passed to strategies (`HashMap<String, Decimal>`). -/
abbrev Market := List (String × ℚ)

/-- Embedding of `strategy.rs::Strategy`.  The per-variant structs carry only constants
that `generate_routing_decisions` never reads (`max_position_size`, `min_yield`,
`target_positions`, `rebalance_threshold`, `target_volatility`), so the tagged union
reduces to an enumeration of the five variants. -/
inductive Strategy where
  | conservative
  | balanced
  | aggressive
  | yield_maximizer
  | risk_parity
deriving DecidableEq, Repr

/-- Embedding of `ConservativeStrategy::generate_routing_decisions`.  The wall-clock
timestamp stamped onto each decision is the explicit argument `t`. -/
def conservativeDecisions (portfolio : Portfolio) (t : ℤ) : List RoutingDecision :=
  if portfolio.cash < portfolio.total_value * (1/10) then []
  else
    let allocation_amount := portfolio.cash * (3/10)
    if 1000 < allocation_amount then
      [{ timestamp := t, source_asset := "USD", target_asset := "USDC",
         amount := allocation_amount, expected_yield := 5/100, risk_score := 1/10,
         execution_cost := allocation_amount * (1/1000) }]
    else []

/-- Embedding of `BalancedStrategy::generate_routing_decisions`. -/
def balancedDecisions (portfolio : Portfolio) (t : ℤ) : List RoutingDecision :=
  if portfolio.cash < 1000 then []
  else
    let allocation_per_asset := portfolio.cash * (2/10)
    (["USDC", "ETH", "BTC", "SOL", "MATIC"]).filterMap fun asset =>
      if mapContains asset portfolio.positions = false ∧ 500 < allocation_per_asset then
        some { timestamp := t, source_asset := "USD", target_asset := asset,
               amount := allocation_per_asset, expected_yield := 8/100, risk_score := 1/2,
               execution_cost := allocation_per_asset * (2/1000) }
      else none

/-- Embedding of `AggressiveStrategy::generate_routing_decisions`. -/
def aggressiveDecisions (portfolio : Portfolio) (t : ℤ) : List RoutingDecision :=
  if portfolio.cash < 1000 then []
  else
    let allocation_amount := portfolio.cash * (6/10)
    [{ timestamp := t, source_asset := "USD", target_asset := "HIGH_YIELD_POOL",
       amount := allocation_amount, expected_yield := 20/100, risk_score := 8/10,
       execution_cost := allocation_amount * (5/1000) }]

/-- Embedding of `YieldMaximizerStrategy::generate_routing_decisions`. -/
def yieldMaximizerDecisions (portfolio : Portfolio) (t : ℤ) : List RoutingDecision :=
  if 1000 < portfolio.cash then
    [{ timestamp := t, source_asset := "USD", target_asset := "MAX_YIELD",
       amount := portfolio.cash * (9/10), expected_yield := 25/100, risk_score := 7/10,
       execution_cost := portfolio.cash * (3/1000) }]
  else []

/-- Embedding of `RiskParityStrategy::generate_routing_decisions`. -/
def riskParityDecisions (portfolio : Portfolio) (t : ℤ) : List RoutingDecision :=
  if portfolio.cash < 1000 then []
  else
    let allocation_per_asset := portfolio.cash / 4
    (["USDC", "ETH", "BTC", "SOL"]).filterMap fun asset =>
      if mapContains asset portfolio.positions = false ∧ 500 < allocation_per_asset then
        some { timestamp := t, source_asset := "USD", target_asset := asset,
               amount := allocation_per_asset, expected_yield := 10/100, risk_score := 4/10,
               execution_cost := allocation_per_asset * (2/1000) }
      else none

/-- Embedding of `<Strategy as RoutingStrategy>::generate_routing_decisions`.  Every
variant accepts the market map but (as in the source) none reads it. -/
def Strategy.generate_routing_decisions (s : Strategy) (portfolio : Portfolio)
    (market_state : Market) (t : ℤ) : List RoutingDecision :=
  match s, market_state with
  | .conservative, _ => conservativeDecisions portfolio t
  | .balanced, _ => balancedDecisions portfolio t
  | .aggressive, _ => aggressiveDecisions portfolio t
  | .yield_maximizer, _ => yieldMaximizerDecisions portfolio t
  | .risk_parity, _ => riskParityDecisions portfolio t

/-- Model of `str::to_lowercase` as used by `Strategy::from_name` (character-wise
lowercasing; the strategy names involved are ASCII, where the two agree). -/
def strToLower (s : String) : String :=
  ⟨s.data.map Char.toLower⟩

/-- Embedding of `Strategy::from_name` (case-insensitive name dispatch). -/
def Strategy.from_name (name : String) : Except String Strategy :=
  let n := strToLower name
  if n = "conservative" then .ok .conservative
  else if n = "balanced" then .ok .balanced
  else if n = "aggressive" then .ok .aggressive
  else if n = "yield_maximizer" ∨ n = "yield" then .ok .yield_maximizer
  else if n = "risk_parity" ∨ n = "risk" then .ok .risk_parity
  else .error ("Unknown strategy: " ++ name)

/-- Embedding of `simulator.rs::Simulator`. -/
structure Simulator where
  portfolio : Portfolio
  strategy : Strategy
  step_count : ℕ
  portfolio_history : List PortfolioSnapshot
  market_state : Market
deriving DecidableEq, Repr

/-- Embedding of `Simulator::new`.  The `f64 → Decimal` conversion of the initial
capital (fail-safe to zero) is exact on the rationals used here. -/
def Simulator.new (initial_capital : ℚ) (strategy : Strategy) : Simulator :=
  { portfolio := Portfolio.new initial_capital, strategy := strategy, step_count := 0,
    portfolio_history := [], market_state := [] }

/-- Price evolution of one position inside `Simulator::update_market_prices`.
`shock symbol` stands for the already-`sqrt(dt)`-scaled uniform draw
`rng.gen::<f64>() − 0.5` times `dt.sqrt()` after its decimal conversion; the code
multiplies that by the volatility and adds the drift term `yield_rate × dt`. -/
def evolvePosition (shock : String → ℚ) (kv : String × Position) : String × Position :=
  let position := kv.2
  let dt : ℚ := 1/365
  let drift := position.asset.yield_rate
  let drift_term := drift * dt
  let shock_term := shock kv.1 * position.asset.volatility
  let price_change := drift_term + shock_term
  let new_price := position.asset.current_price * (1 + price_change)
  (kv.1, position.update_price new_price)

/-- Embedding of `Simulator::update_market_prices`: evolve every held position and
record each new price in the market map. -/
def Simulator.update_market_prices (sim : Simulator) (shock : String → ℚ) : Simulator :=
  let positions := sim.portfolio.positions.map (evolvePosition shock)
  let market_state :=
    positions.foldl (fun m kv => mapInsert kv.1 kv.2.asset.current_price m) sim.market_state
  { sim with portfolio := { sim.portfolio with positions := positions },
             market_state := market_state }

/-- Embedding of `Simulator::execute_routing`.  Errors (before any state change) when
the decision amount strictly exceeds cash; otherwise tops up an existing position or
opens a new one, then unconditionally deducts the execution cost from cash. -/
def Simulator.execute_routing (sim : Simulator) (decision : RoutingDecision) :
    Except String Simulator :=
  if sim.portfolio.cash < decision.amount then
    .error "Insufficient cash for routing decision"
  else
    match mapLookup decision.target_asset sim.portfolio.positions with
    | some position =>
        let additional_quantity := decision.amount / position.asset.current_price
        let position2 := { position with
          quantity := position.quantity + additional_quantity,
          current_value := position.current_value + decision.amount }
        let portfolio := { sim.portfolio with
          positions := mapInsert decision.target_asset position2 sim.portfolio.positions }
        .ok { sim with portfolio :=
                { portfolio with cash := portfolio.cash - decision.execution_cost } }
    | none =>
        let asset : Asset :=
          { symbol := decision.target_asset,
            name := "Asset " ++ decision.target_asset,
            asset_type := .Crypto,
            current_price := (mapLookup decision.target_asset sim.market_state).getD 1,
            volatility := 2/100,
            yield_rate := decision.expected_yield }
        let quantity := decision.amount / asset.current_price
        let position := Position.new asset quantity asset.current_price
        let portfolio := sim.portfolio.add_position position
        .ok { sim with portfolio :=
                { portfolio with cash := portfolio.cash - decision.execution_cost } }

/-- Sequential execution of one step's decision list (`for decision in decisions { self.execute_routing(decision)? }`):
the first error aborts, leaving the remaining decisions unexecuted. -/
def execRoutingList (sim : Simulator) : List RoutingDecision → Except String Simulator
  | [] => .ok sim
  | d :: ds =>
    match sim.execute_routing d with
    | .error e => .error e
    | .ok sim2 => execRoutingList sim2 ds

/-- Embedding of `Simulator::record_snapshot`. -/
def Simulator.record_snapshot (sim : Simulator) (t : ℤ) : Simulator :=
  let snapshot : PortfolioSnapshot :=
    { timestamp := t, total_value := sim.portfolio.total_value, cash := sim.portfolio.cash,
      positions_value := positionsValue sim.portfolio.positions,
      positions_count := sim.portfolio.positions.length }
  { sim with portfolio_history := sim.portfolio_history ++ [snapshot] }

/-- State of a step after the counter increment and the price evolution, just before
decision generation (the first two actions of `Simulator::step`). -/
def Simulator.after_prices (sim : Simulator) (shock : String → ℚ) : Simulator :=
  Simulator.update_market_prices { sim with step_count := sim.step_count + 1 } shock

/-- Embedding of `Simulator::step`: evolve prices, generate decisions, execute them
(propagating the first error, which skips the bookkeeping), then recompute the total
and append a snapshot. -/
def Simulator.step (sim : Simulator) (shock : String → ℚ) (t : ℤ) : Except String Simulator :=
  let sim2 := sim.after_prices shock
  let decisions :=
    Strategy.generate_routing_decisions sim2.strategy sim2.portfolio sim2.market_state t
  match execRoutingList sim2 decisions with
  | .error e => .error e
  | .ok sim3 =>
      .ok (Simulator.record_snapshot
             { sim3 with portfolio := sim3.portfolio.update_total_value } t)

/-- Final portfolio value computed by `Simulator::finalize` (which first reruns
`update_total_value`); the only finalize output `run_single_simulation` reads. -/
def Simulator.finalize_final_value (sim : Simulator) : ℚ :=
  (Portfolio.update_total_value sim.portfolio).total_value

/-- Loop of `MonteCarloEngine::run_single_simulation`: run `n` further steps starting
at step index `i`, aborting on the first error. -/
def runSteps (shock : ℕ → String → ℚ) (t : ℕ → ℤ) :
    ℕ → ℕ → Simulator → Except String Simulator
  | _, 0, sim => .ok sim
  | i, Nat.succ n, sim =>
    match Simulator.step sim (shock i) (t i) with
    | .error e => .error e
    | .ok sim2 => runSteps shock t (i + 1) n sim2

/-- Embedding of `MonteCarloEngine::run_single_simulation`: a fresh balanced simulator
with capital 1,000,000 stepped exactly 100 times, then finalized to its final value.
Each step's random draws and wall-clock reads are supplied by `shock` and `t`. -/
def run_single_simulation (shock : ℕ → String → ℚ) (t : ℕ → ℤ) : Except String ℚ :=
  (runSteps shock t 0 100 (Simulator.new 1000000 .balanced)).map
    Simulator.finalize_final_value

/-- Sample assembly of `MonteCarloEngine::run_stress_test`: one trial per iteration,
with a failed trial's error replaced by the sample `0.0` (`result.unwrap_or(0.0)`).
Batching is progress logging only and does not affect the samples; the summary
statistics computed afterwards are derived from this list and are not modelled. -/
def run_stress_test (iterations : ℕ) (shock : ℕ → ℕ → String → ℚ) (t : ℕ → ℕ → ℤ) :
    Except String (List ℚ) :=
  .ok ((List.range iterations).map fun i =>
    match run_single_simulation (shock i) (t i) with
    | .error _ => 0
    | .ok v => v)

/-- Step-to-step return series over a snapshot history (`windows(2)` of total values,
each mapped to `(curr − prev)/prev`, or `0` when the prior value is non-positive).
This identical computation appears inline in `calculate_sharpe_ratio`,
`calculate_volatility`, `calculate_var` and `calculate_cvar`. -/
def returnsOf (history : List PortfolioSnapshot) : List ℚ :=
  (history.zip history.tail).map fun w =>
    if 0 < w.1.total_value then (w.2.total_value - w.1.total_value) / w.1.total_value else 0

/-- Embedding of `Simulator::calculate_sharpe_ratio` as a function of the snapshot
history it reads from `self`.  `sqrtFn` stands for `f64::sqrt`, applied (as in the
source) to the variance and to `252.0`. -/
def Simulator.calculate_sharpe_ratio (sqrtFn : ℚ → ℚ) (history : List PortfolioSnapshot) : ℚ :=
  if history.length < 2 then 0
  else
    let returns := returnsOf history
    if returns = [] then 0
    else
      let mean := returns.sum / (returns.length : ℚ)
      let variance := (returns.map (fun r => (r - mean) ^ 2)).sum / (returns.length : ℚ)
      let std_dev := sqrtFn variance
      if 0 < std_dev then mean / std_dev * sqrtFn 252 else 0

/-- Embedding of `RiskCalculator::sharpe_ratio` over a given return series. -/
def RiskCalculator.sharpe_ratio (sqrtFn : ℚ → ℚ) (returns : List ℚ)
    (risk_free_rate : ℚ) : ℚ :=
  if returns = [] then 0
  else
    let mean_return := returns.sum / (returns.length : ℚ)
    let excess_return := mean_return - risk_free_rate
    let variance := (returns.map (fun r => (r - mean_return) ^ 2)).sum / (returns.length : ℚ)
    let std_dev := sqrtFn variance
    if 0 < std_dev then excess_return / std_dev * sqrtFn 252 else 0

/-- Running-peak loop of `Simulator::calculate_max_drawdown`. -/
def simDrawdownLoop : List ℚ → ℚ → ℚ → ℚ
  | [], _, max_drawdown => max_drawdown
  | value :: rest, max_value, max_drawdown =>
    let peak := if max_value < value then value else max_value
    let drawdown := (peak - value) / peak * 100
    simDrawdownLoop rest peak (if max_drawdown < drawdown then drawdown else max_drawdown)

/-- Embedding of `Simulator::calculate_max_drawdown` (zero for an empty history;
running peak seeded at the first value). -/
def Simulator.calculate_max_drawdown (history : List PortfolioSnapshot) : ℚ :=
  match history.map (fun s => s.total_value) with
  | [] => 0
  | v :: vs => simDrawdownLoop (v :: vs) v 0

/-- Running-peak loop of `RiskCalculator::max_drawdown` (textually the same loop as
the simulator's private copy; kept separate to mirror the two source functions). -/
def riskDrawdownLoop : List ℚ → ℚ → ℚ → ℚ
  | [], _, max_dd => max_dd
  | value :: rest, peak, max_dd =>
    let peak2 := if peak < value then value else peak
    let drawdown := (peak2 - value) / peak2 * 100
    riskDrawdownLoop rest peak2 (if max_dd < drawdown then drawdown else max_dd)

/-- Embedding of `RiskCalculator::max_drawdown` (zero when the history has fewer than
two snapshots). -/
def RiskCalculator.max_drawdown (history : List PortfolioSnapshot) : ℚ :=
  if history.length < 2 then 0
  else
    match history.map (fun s => s.total_value) with
    | [] => 0
    | v :: vs => riskDrawdownLoop (v :: vs) v 0

/-- Rust `as usize` applied to a non-NaN f64, as used on `(1 − confidence) × n`:
truncation toward zero, saturating at 0 for negative values. -/
def f64AsUsize (q : ℚ) : ℕ := q.floor.toNat

/-- Embedding of `Simulator::calculate_var` as a function of the snapshot history and
of `self.portfolio.total_value` (the scaling factor).  Sorts the return series
ascending, indexes at `floor((1 − confidence) × n)` and scales the absolute value of
the selected return by the current total value. -/
def Simulator.calculate_var (history : List PortfolioSnapshot) (total_value : ℚ)
    (confidence : ℚ) : ℚ :=
  if history = [] then 0
  else
    let returns := returnsOf history
    if returns = [] then 0
    else
      let sorted_returns := List.insertionSort (· ≤ ·) returns
      let index := f64AsUsize ((1 - confidence) * (sorted_returns.length : ℚ))
      let var_return := sorted_returns.getD index 0
      total_value * |var_return|

/-! Helper lemmas about the association-list operations. -/

lemma mapContains_eq_false {β : Type} {k : String} {l : List (String × β)}
    (h : mapLookup k l = none) : mapContains k l = false := by
  simp [mapContains, h]

lemma mapLookup_keys_ne {β : Type} {k : String} : ∀ {l : List (String × β)},
    mapLookup k l = none → ∀ kv ∈ l, kv.1 ≠ k
  | [], _, kv, hmem => by simp at hmem
  | kv0 :: rest, h, kv, hmem => by
    unfold mapLookup at h
    by_cases hk : kv0.1 = k
    · simp [hk] at h
    · rw [List.mem_cons] at hmem
      rcases hmem with rfl | hmem
      · exact hk
      · exact mapLookup_keys_ne (by simpa [hk] using h) kv hmem

lemma mapLookup_append_self {β : Type} {k : String} {v : β} : ∀ {l : List (String × β)},
    mapLookup k l = none → mapLookup k (l ++ [(k, v)]) = some v
  | [], _ => by simp [mapLookup]
  | kv0 :: rest, h => by
    simp only [mapLookup, List.cons_append] at h ⊢
    by_cases hk : kv0.1 = k
    · simp [hk] at h
    · rw [if_neg hk] at h ⊢
      exact mapLookup_append_self h

lemma mapErase_append_self {β : Type} {k : String} {v : β} {l : List (String × β)}
    (h : mapLookup k l = none) : mapErase k (l ++ [(k, v)]) = l := by
  unfold mapErase
  rw [List.filter_append]
  have h2 : List.filter (fun kv => kv.1 != k) [(k, v)] = [] := by simp
  rw [h2, List.append_nil, List.filter_eq_self]
  intro kv hmem
  simpa using mapLookup_keys_ne h kv hmem

/-! Helper lemmas about decision execution and the step loop. -/

lemma execute_routing_history {sim sim' : Simulator} {d : RoutingDecision}
    (h : Simulator.execute_routing sim d = .ok sim') :
    sim'.portfolio_history = sim.portfolio_history := by
  unfold Simulator.execute_routing at h
  by_cases hc : sim.portfolio.cash < d.amount
  · rw [if_pos hc] at h
    exact absurd h (by simp)
  · rw [if_neg hc] at h
    cases hl : mapLookup d.target_asset sim.portfolio.positions with
    | some position =>
      rw [hl] at h
      simp only [Except.ok.injEq] at h
      rw [← h]
    | none =>
      rw [hl] at h
      simp only [Except.ok.injEq] at h
      rw [← h]

lemma execRoutingList_history : ∀ {ds : List RoutingDecision} {sim sim' : Simulator},
    execRoutingList sim ds = .ok sim' → sim'.portfolio_history = sim.portfolio_history
  | [], sim, sim', h => by
    simp only [execRoutingList, Except.ok.injEq] at h
    rw [← h]
  | d :: ds, sim, sim', h => by
    unfold execRoutingList at h
    cases he : Simulator.execute_routing sim d with
    | error e => rw [he] at h; exact absurd h (by simp)
    | ok sim3 =>
      rw [he] at h
      rw [execRoutingList_history h, execute_routing_history he]

/-- A step fails with error `e` exactly when executing its generated decision list
fails with `e` (the shape of `Simulator.step`'s only error path). -/
lemma step_error_iff (sim : Simulator) (shock : String → ℚ) (t : ℤ) (e : String) :
    Simulator.step sim shock t = .error e ↔
    execRoutingList (sim.after_prices shock)
      (Strategy.generate_routing_decisions (sim.after_prices shock).strategy
        (sim.after_prices shock).portfolio (sim.after_prices shock).market_state t) =
      .error e := by
  simp only [Simulator.step]
  cases he : execRoutingList (sim.after_prices shock)
      (Strategy.generate_routing_decisions (sim.after_prices shock).strategy
        (sim.after_prices shock).portfolio (sim.after_prices shock).market_state t) with
  | error e2 => simp
  | ok sim3 => simp

/-! Helper lemmas about the return series and the drawdown loops. -/

lemma returnsOf_nil_of_short {history : List PortfolioSnapshot}
    (h : history.length < 2) : returnsOf history = [] := by
  cases history with
  | nil => rfl
  | cons a tail =>
    cases tail with
    | nil => rfl
    | cons b rest => simp at h; omega

lemma returnsOf_ne_nil {history : List PortfolioSnapshot}
    (h : ¬ history.length < 2) : returnsOf history ≠ [] := by
  cases history with
  | nil => simp at h
  | cons a tail =>
    cases tail with
    | nil => simp at h
    | cons b rest => simp [returnsOf]

lemma drawdown_loops_eq : ∀ (l : List ℚ) (peak m : ℚ),
    simDrawdownLoop l peak m = riskDrawdownLoop l peak m
  | [], _, _ => rfl
  | v :: rest, peak, m => by
    simp only [simDrawdownLoop, riskDrawdownLoop]
    exact drawdown_loops_eq rest _ _

lemma simDrawdownLoop_nonneg : ∀ (l : List ℚ) (peak m : ℚ),
    0 ≤ m → 0 ≤ simDrawdownLoop l peak m
  | [], _, _, hm => hm
  | v :: rest, peak, m, hm => by
    simp only [simDrawdownLoop]
    apply simDrawdownLoop_nonneg
    by_cases h : m < ((if peak < v then v else peak) - v) / (if peak < v then v else peak) * 100
    · rw [if_pos h]
      exact le_of_lt (lt_of_le_of_lt hm h)
    · rw [if_neg h]
      exact hm

lemma simDrawdownLoop_zero_of_chain : ∀ (l : List ℚ) (peak : ℚ),
    List.Chain' (· ≤ ·) (peak :: l) → simDrawdownLoop l peak 0 = 0
  | [], _, _ => rfl
  | v :: rest, peak, hchain => by
    rw [List.chain'_cons] at hchain
    obtain ⟨hpv, hrest⟩ := hchain
    simp only [simDrawdownLoop]
    have hpeak : (if peak < v then v else peak) = v := by
      by_cases h : peak < v
      · rw [if_pos h]
      · rw [if_neg h]
        exact le_antisymm hpv (not_lt.mp h)
    rw [hpeak, sub_self, zero_div, zero_mul, if_neg (lt_irrefl 0)]
    exact simDrawdownLoop_zero_of_chain rest v hrest

/-- Statement of the `total_value` cache invariant of §8 of the spec. -/
def totalValueInvariant (p : Portfolio) : Prop :=
  p.total_value = p.cash + positionsValue p.positions

/-- Claim C4: for every strategy variant, portfolio and market-price map, the
generated decision list is a deterministic function of the portfolio state alone:
two invocations with identical portfolio input (and identical decision timestamp,
the explicit embedding of the ambient clock) agree even when the market maps differ,
since no variant reads the market map or any hidden state. -/
theorem C4_strategy_deterministic (s : Strategy) (p : Portfolio) (m1 m2 : Market) (t : ℤ) :
    Strategy.generate_routing_decisions s p m1 t = Strategy.generate_routing_decisions s p m2 t := by
  cases s <;> rfl

/-- Claim C5: immediately after any `update_total_value` call — including the ones
performed by `add_position`, `remove_position` (on a held symbol), `update_prices`
and every successful simulator step — `total_value = cash + Σ position.current_value`. -/
theorem C5_total_value_cache (p : Portfolio) (position : Position) (symbol : String)
    (price_updates : List (String × ℚ)) (sim sim' : Simulator) (shock : String → ℚ) (t : ℤ) :
    totalValueInvariant (Portfolio.update_total_value p) ∧
    totalValueInvariant (Portfolio.add_position p position) ∧
    (mapContains symbol p.positions = true →
      totalValueInvariant (Portfolio.remove_position p symbol).2) ∧
    totalValueInvariant (Portfolio.update_prices p price_updates) ∧
    (Simulator.step sim shock t = .ok sim' → totalValueInvariant sim'.portfolio) := by
  refine ⟨rfl, rfl, ?_, rfl, ?_⟩
  · intro h
    unfold Portfolio.remove_position
    cases hl : mapLookup symbol p.positions with
    | none => simp [mapContains, hl] at h
    | some pos => rfl
  · intro h
    simp only [Simulator.step] at h
    cases he : execRoutingList (sim.after_prices shock)
        (Strategy.generate_routing_decisions (sim.after_prices shock).strategy
          (sim.after_prices shock).portfolio (sim.after_prices shock).market_state t) with
    | error e => rw [he] at h; simp at h
    | ok sim3 =>
      rw [he] at h
      simp only [Except.ok.injEq] at h
      rw [← h]
      rfl

/-- Claim C6: the Sharpe ratio and maximum drawdown computed inside `finalize` agree
with `RiskCalculator::sharpe_ratio` (at risk-free rate 0, over the same step-to-step
return series) and `RiskCalculator::max_drawdown` (over the same history), for every
snapshot history and every model of `f64::sqrt`. -/
theorem C6_finalize_reuses_risk_formulas (sqrtFn : ℚ → ℚ) (history : List PortfolioSnapshot) :
    Simulator.calculate_sharpe_ratio sqrtFn history =
      RiskCalculator.sharpe_ratio sqrtFn (returnsOf history) 0 ∧
    Simulator.calculate_max_drawdown history = RiskCalculator.max_drawdown history := by
  constructor
  · by_cases h : history.length < 2
    · rw [Simulator.calculate_sharpe_ratio, if_pos h, returnsOf_nil_of_short h,
        RiskCalculator.sharpe_ratio, if_pos rfl]
    · have hne := returnsOf_ne_nil h
      simp only [Simulator.calculate_sharpe_ratio, RiskCalculator.sharpe_ratio,
        if_neg h, if_neg hne, sub_zero]
  · cases history with
    | nil => rfl
    | cons a tail =>
      cases tail with
      | nil =>
        simp [Simulator.calculate_max_drawdown, simDrawdownLoop, RiskCalculator.max_drawdown]
      | cons b rest =>
        have hlen : ¬ (a :: b :: rest).length < 2 := by simp
        simp only [Simulator.calculate_max_drawdown, RiskCalculator.max_drawdown,
          if_neg hlen, List.map]
        exact drawdown_loops_eq _ _ _

/-- Claim C8: both maximum-drawdown computations are non-negative on every history
and exactly zero whenever the history's total values are non-decreasing. -/
theorem C8_max_drawdown_nonneg (history : List PortfolioSnapshot) :
    0 ≤ Simulator.calculate_max_drawdown history ∧
    0 ≤ RiskCalculator.max_drawdown history ∧
    (List.Chain' (· ≤ ·) (history.map (fun s => s.total_value)) →
      Simulator.calculate_max_drawdown history = 0 ∧
      RiskCalculator.max_drawdown history = 0) := by
  refine ⟨?_, ?_, ?_⟩
  · unfold Simulator.calculate_max_drawdown
    cases hm : history.map (fun s => s.total_value) with
    | nil => exact le_refl 0
    | cons v vs => exact simDrawdownLoop_nonneg _ _ _ (le_refl 0)
  · unfold RiskCalculator.max_drawdown
    by_cases hlen : history.length < 2
    · rw [if_pos hlen]
    · rw [if_neg hlen]
      cases hm : history.map (fun s => s.total_value) with
      | nil => exact le_refl 0
      | cons v vs =>
        show 0 ≤ riskDrawdownLoop (v :: vs) v 0
        rw [← drawdown_loops_eq]
        exact simDrawdownLoop_nonneg _ _ _ (le_refl 0)
  · intro hchain
    constructor
    · unfold Simulator.calculate_max_drawdown
      cases hm : history.map (fun s => s.total_value) with
      | nil => rfl
      | cons v vs =>
        rw [hm] at hchain
        exact simDrawdownLoop_zero_of_chain (v :: vs) v
          (List.chain'_cons.mpr ⟨le_refl v, hchain⟩)
    · unfold RiskCalculator.max_drawdown
      by_cases hlen : history.length < 2
      · rw [if_pos hlen]
      · rw [if_neg hlen]
        cases hm : history.map (fun s => s.total_value) with
        | nil => rfl
        | cons v vs =>
          rw [hm] at hchain
          show riskDrawdownLoop (v :: vs) v 0 = 0
          rw [← drawdown_loops_eq]
          exact simDrawdownLoop_zero_of_chain (v :: vs) v
            (List.chain'_cons.mpr ⟨le_refl v, hchain⟩)

/-- Names accepted by `Strategy::from_name` after lowercasing (the match arms of the
source, aliases included). -/
def knownStrategyNames : List String :=
  ["conservative", "balanced", "aggressive", "yield_maximizer", "yield", "risk_parity", "risk"]

/-- Claim C9: `from_name` succeeds exactly on the case-insensitive names
conservative / balanced / aggressive / yield_maximizer (alias yield) / risk_parity
(alias risk), returning the same strategy value as the corresponding direct
constructor (hence identical decisions on identical inputs, by C4's function), and
fails with the "Unknown strategy" error on every other name. -/
theorem C9_from_name_dispatch (name : String) :
    ((Strategy.from_name name).isOk = true ↔ strToLower name ∈ knownStrategyNames) ∧
    (strToLower name = "conservative" → Strategy.from_name name = .ok .conservative) ∧
    (strToLower name = "balanced" → Strategy.from_name name = .ok .balanced) ∧
    (strToLower name = "aggressive" → Strategy.from_name name = .ok .aggressive) ∧
    (strToLower name = "yield_maximizer" ∨ strToLower name = "yield" →
      Strategy.from_name name = .ok .yield_maximizer) ∧
    (strToLower name = "risk_parity" ∨ strToLower name = "risk" →
      Strategy.from_name name = .ok .risk_parity) ∧
    (strToLower name ∉ knownStrategyNames →
      Strategy.from_name name = .error ("Unknown strategy: " ++ name)) := by
  by_cases h1 : strToLower name = "conservative"
  · simp [Strategy.from_name, knownStrategyNames, Except.isOk, Except.toBool, h1]
  · by_cases h2 : strToLower name = "balanced"
    · simp [Strategy.from_name, knownStrategyNames, Except.isOk, Except.toBool, h1, h2]
    · by_cases h3 : strToLower name = "aggressive"
      · simp [Strategy.from_name, knownStrategyNames, Except.isOk, Except.toBool, h1, h2, h3]
      · by_cases h4 : strToLower name = "yield_maximizer"
        · simp [Strategy.from_name, knownStrategyNames, Except.isOk, Except.toBool, h1, h2, h3, h4]
        · by_cases h5 : strToLower name = "yield"
          · simp [Strategy.from_name, knownStrategyNames, Except.isOk, Except.toBool, h1, h2, h3, h4, h5]
          · by_cases h6 : strToLower name = "risk_parity"
            · simp [Strategy.from_name, knownStrategyNames, Except.isOk, Except.toBool, h1, h2, h3, h4, h5, h6]
            · by_cases h7 : strToLower name = "risk"
              · simp [Strategy.from_name, knownStrategyNames, Except.isOk, Except.toBool, h1, h2, h3, h4, h5, h6, h7]
              · simp [Strategy.from_name, knownStrategyNames, Except.isOk, Except.toBool, h1, h2, h3, h4, h5, h6, h7]

/-- Witness for C9 at concrete names: an upper-case known name succeeds with the
constructor's value and an unknown name yields the "Unknown strategy" error. -/
theorem C9_witness :
    Strategy.from_name "BALANCED" = .ok .balanced ∧
    Strategy.from_name "perpetual" = .error ("Unknown strategy: " ++ "perpetual") :=
  ⟨(C9_from_name_dispatch "BALANCED").2.2.1 (by with_unfolding_all decide),
   (C9_from_name_dispatch "perpetual").2.2.2.2.2.2 (by with_unfolding_all decide)⟩

/-- Concrete asset, position and portfolios used by witnesses and counterexamples. -/
def assetA : Asset :=
  { symbol := "A", name := "Asset A", asset_type := .Crypto,
    current_price := 2, volatility := 0, yield_rate := 0 }

/-- Concrete position over `assetA` (quantity 3 at price 2, value 6). -/
def posA : Position := Position.new assetA 3 2

/-- Portfolio whose `total_value` cache is stale (999 ≠ 100 + 0). -/
def pStale : Portfolio := { positions := [], cash := 100, total_value := 999 }

/-- Portfolio whose `total_value` cache is consistent. -/
def pGood : Portfolio := { positions := [], cash := 100, total_value := 100 }

/-- Claim C10 (amended): adding a position under a fresh symbol and immediately
removing that symbol returns the inserted position and restores cash, the position
map and `total_value` exactly — provided the portfolio's `total_value` cache was
consistent beforehand (`remove_position` rederives the cache rather than restoring
the stored value). -/
theorem C10_add_remove_roundtrip (p : Portfolio) (position : Position)
    (habs : mapLookup position.asset.symbol p.positions = none)
    (hinv : p.total_value = p.cash + positionsValue p.positions) :
    (Portfolio.add_position p position).remove_position position.asset.symbol =
      (some position, p) := by
  obtain ⟨positions, cash, tv⟩ := p
  simp only at habs hinv
  have hc := mapContains_eq_false habs
  simp only [Portfolio.add_position, Portfolio.update_total_value, mapInsert, hc,
    Bool.false_eq_true, if_false]
  simp only [Portfolio.remove_position, mapLookup_append_self habs,
    mapErase_append_self habs]
  simp only [Portfolio.update_total_value, Prod.mk.injEq, Portfolio.mk.injEq,
    sub_add_cancel, true_and]
  exact hinv.symm

/-- Counterexample for C10 as stated: on a portfolio with a stale `total_value`
cache (999, while cash + positions value is 100), add-then-remove returns the
inserted position but does not restore `total_value`, so the claim's unconditional
round-trip equality fails. -/
theorem C10_counterexample :
    mapLookup posA.asset.symbol pStale.positions = none ∧
    ((pStale.add_position posA).remove_position posA.asset.symbol).1 = some posA ∧
    ((pStale.add_position posA).remove_position posA.asset.symbol).2 ≠ pStale := by
  with_unfolding_all decide

/-- Witness for C10's amended theorem on a concrete consistent portfolio. -/
theorem C10_witness :
    mapLookup posA.asset.symbol pGood.positions = none ∧
    pGood.total_value = pGood.cash + positionsValue pGood.positions ∧
    (pGood.add_position posA).remove_position posA.asset.symbol = (some posA, pGood) :=
  ⟨by with_unfolding_all decide, by with_unfolding_all decide,
   C10_add_remove_roundtrip pGood posA (by with_unfolding_all decide)
     (by with_unfolding_all decide)⟩

/-- Simulator already holding a "USDC" position (price 1, quantity 100), used to
exercise the top-up branch of `execute_routing`. -/
def simC1 : Simulator :=
  { portfolio :=
      { positions := [("USDC", Position.new
          { symbol := "USDC", name := "Asset USDC", asset_type := .Stablecoin,
            current_price := 1, volatility := 0, yield_rate := 0 } 100 1)],
        cash := 1000, total_value := 1100 },
    strategy := .conservative, step_count := 0, portfolio_history := [],
    market_state := [] }

/-- Decision topping up the existing "USDC" position of `simC1`. -/
def dC1 : RoutingDecision :=
  { timestamp := 0, source_asset := "USD", target_asset := "USDC", amount := 100,
    expected_yield := 5/100, risk_score := 1/10, execution_cost := 1 }

set_option maxRecDepth 4000 in
/-- Counterexample for C1 as stated: topping up an existing position leaves the cash
untouched except for the fee (1000 → 999), not `cash − amount − cost` (which would
be 899), so the claimed accounting fails on the top-up branch. -/
theorem C1_counterexample :
    dC1.amount ≤ simC1.portfolio.cash ∧
    (Simulator.execute_routing simC1 dC1).map (fun s => s.portfolio.cash) = .ok 999 ∧
    (999 : ℚ) ≠ simC1.portfolio.cash - dC1.amount - dC1.execution_cost := by
  with_unfolding_all decide

/-- Claim C1 (amended): for an executed decision with `amount ≤ cash`, opening a new
position yields `cash_after = cash_before − amount − execution_cost` (given a nonzero
target price), while topping up an existing position deducts only the execution cost
(the amount is credited to the position without ever being debited from cash); in
both branches the only way cash can go below zero is the unconditional fee deduction
(pre-fee cash stays non-negative). -/
theorem C1_cash_accounting (sim sim' : Simulator) (d : RoutingDecision)
    (hle : d.amount ≤ sim.portfolio.cash)
    (hok : Simulator.execute_routing sim d = .ok sim') :
    (mapLookup d.target_asset sim.portfolio.positions = none →
      (mapLookup d.target_asset sim.market_state).getD 1 ≠ 0 →
      sim'.portfolio.cash = sim.portfolio.cash - d.amount - d.execution_cost) ∧
    ((mapLookup d.target_asset sim.portfolio.positions).isSome = true →
      sim'.portfolio.cash = sim.portfolio.cash - d.execution_cost) ∧
    (0 ≤ sim.portfolio.cash → -d.execution_cost ≤ sim'.portfolio.cash) := by
  unfold Simulator.execute_routing at hok
  rw [if_neg (not_lt.mpr hle)] at hok
  cases hl : mapLookup d.target_asset sim.portfolio.positions with
  | some position =>
    rw [hl] at hok
    simp only [Except.ok.injEq] at hok
    subst hok
    refine ⟨?_, ?_, ?_⟩
    · intro hnone _
      simp at hnone
    · intro _
      rfl
    · intro h0
      show -d.execution_cost ≤ sim.portfolio.cash - d.execution_cost
      linarith
  | none =>
    rw [hl] at hok
    simp only [Except.ok.injEq] at hok
    subst hok
    refine ⟨?_, ?_, ?_⟩
    · intro _ hP
      show sim.portfolio.cash -
          d.amount / (mapLookup d.target_asset sim.market_state).getD 1 *
            (mapLookup d.target_asset sim.market_state).getD 1 -
          d.execution_cost =
        sim.portfolio.cash - d.amount - d.execution_cost
      rw [div_mul_cancel₀ _ hP]
    · intro hsome
      simp at hsome
    · intro h0
      show -d.execution_cost ≤ sim.portfolio.cash -
          d.amount / (mapLookup d.target_asset sim.market_state).getD 1 *
            (mapLookup d.target_asset sim.market_state).getD 1 -
          d.execution_cost
      by_cases hP : (mapLookup d.target_asset sim.market_state).getD 1 = 0
      · rw [hP, mul_zero]
        linarith
      · rw [div_mul_cancel₀ _ hP]
        linarith

/-- Fresh simulator with cash 1000 and no positions for C1's witness. -/
def simY : Simulator := Simulator.new 1000 .conservative

/-- Decision opening a new position "Y" for C1's witness. -/
def dY : RoutingDecision :=
  { timestamp := 0, source_asset := "USD", target_asset := "Y", amount := 100,
    expected_yield := 5/100, risk_score := 1/10, execution_cost := 1 }

/-- Successor state of `simY` after executing `dY` (priced at the default 1). -/
def simY2 : Simulator :=
  { portfolio :=
      { positions := [("Y",
          { asset := { symbol := "Y", name := "Asset Y", asset_type := .Crypto,
                       current_price := 1, volatility := 1/50, yield_rate := 1/20 },
            quantity := 100, entry_price := 1, current_value := 100 })],
        cash := 899, total_value := 1000 },
    strategy := .conservative, step_count := 0, portfolio_history := [],
    market_state := [] }

/-- Witness for C1's amended theorem on the new-position branch: 1000 − 100 − 1 = 899. -/
theorem C1_witness :
    dY.amount ≤ simY.portfolio.cash ∧
    Simulator.execute_routing simY dY = .ok simY2 ∧
    simY2.portfolio.cash = simY.portfolio.cash - dY.amount - dY.execution_cost :=
  ⟨by with_unfolding_all decide, by with_unfolding_all rfl,
   (C1_cash_accounting simY simY2 dY (by with_unfolding_all decide)
       (by with_unfolding_all rfl)).1
     (by with_unfolding_all rfl) (by with_unfolding_all decide)⟩

/-- Claim C2: `execute_routing` fails with the "Insufficient cash" error exactly when
the amount strictly exceeds cash (erroring before any state change, so no modified
state is produced); a failing decision aborts the rest of the decision list; `step`
fails exactly when its decision execution fails (so the error propagates to `step`'s
caller); and on success — the only way a state is produced — exactly one snapshot is
appended. -/
theorem C2_insufficient_cash_aborts (sim : Simulator) (d : RoutingDecision)
    (ds : List RoutingDecision) (shock : String → ℚ) (t : ℤ) :
    (Simulator.execute_routing sim d = .error "Insufficient cash for routing decision" ↔
      sim.portfolio.cash < d.amount) ∧
    (∀ e, Simulator.execute_routing sim d = .error e →
      execRoutingList sim (d :: ds) = .error e) ∧
    (∀ e, Simulator.step sim shock t = .error e ↔
      execRoutingList (sim.after_prices shock)
        (Strategy.generate_routing_decisions (sim.after_prices shock).strategy
          (sim.after_prices shock).portfolio (sim.after_prices shock).market_state t) =
        .error e) ∧
    (∀ sim', Simulator.step sim shock t = .ok sim' →
      ∃ snapshot, sim'.portfolio_history = sim.portfolio_history ++ [snapshot]) := by
  refine ⟨?_, ?_, ?_, ?_⟩
  · unfold Simulator.execute_routing
    by_cases hc : sim.portfolio.cash < d.amount
    · simp [hc]
    · rw [if_neg hc]
      cases hl : mapLookup d.target_asset sim.portfolio.positions with
      | some position => simp [hc]
      | none => simp [hc]
  · intro e he
    unfold execRoutingList
    rw [he]
  · intro e
    simp only [Simulator.step]
    cases he : execRoutingList (sim.after_prices shock)
        (Strategy.generate_routing_decisions (sim.after_prices shock).strategy
          (sim.after_prices shock).portfolio (sim.after_prices shock).market_state t) with
    | error e2 => simp
    | ok sim3 => simp
  · intro sim' hok
    simp only [Simulator.step] at hok
    cases he : execRoutingList (sim.after_prices shock)
        (Strategy.generate_routing_decisions (sim.after_prices shock).strategy
          (sim.after_prices shock).portfolio (sim.after_prices shock).market_state t) with
    | error e => rw [he] at hok; simp at hok
    | ok sim3 =>
      rw [he] at hok
      simp only [Except.ok.injEq] at hok
      subst hok
      have h3 : sim3.portfolio_history = (sim.after_prices shock).portfolio_history :=
        execRoutingList_history he
      have h4 : (sim.after_prices shock).portfolio_history = sim.portfolio_history := rfl
      exact ⟨_, by simp only [Simulator.record_snapshot]; rw [h3, h4]⟩

/-- Simulator with zero cash for C2's witness. -/
def simPoor : Simulator := Simulator.new 0 .conservative

/-- Decision whose amount (5) exceeds `simPoor`'s cash (0). -/
def dPoor : RoutingDecision :=
  { timestamp := 0, source_asset := "USD", target_asset := "Z", amount := 5,
    expected_yield := 0, risk_score := 0, execution_cost := 0 }

/-- Witness for C2 at a concrete over-allocation: the decision errors and aborts the
decision list. -/
theorem C2_witness :
    Simulator.execute_routing simPoor dPoor =
      .error "Insufficient cash for routing decision" ∧
    execRoutingList simPoor [dPoor] =
      .error "Insufficient cash for routing decision" :=
  have h := C2_insufficient_cash_aborts simPoor dPoor [] (fun _ => 0) 0
  ⟨h.1.mpr (by with_unfolding_all decide),
   h.2.1 _ (h.1.mpr (by with_unfolding_all decide))⟩

/-- Start state of every Monte Carlo trial (`run_single_simulation`): capital
1,000,000 under the balanced strategy. -/
def simMC : Simulator := Simulator.new 1000000 .balanced

/-- Trial state after the step-counter increment and the (empty, as no positions are
held yet) price evolution of the first step. -/
def simMC1 : Simulator := { simMC with step_count := 1 }

/-- The 20%-of-cash decision the balanced strategy emits per fresh symbol on the
1,000,000 trial: amount 200,000 at fee 400. -/
def mcDecision (sym : String) (t : ℤ) : RoutingDecision :=
  { timestamp := t, source_asset := "USD", target_asset := sym, amount := 200000,
    expected_yield := 8/100, risk_score := 1/2, execution_cost := 400 }

lemma mc_after_prices (shock : String → ℚ) : simMC.after_prices shock = simMC1 := rfl

lemma mc_decisions (t : ℤ) :
    Strategy.generate_routing_decisions simMC1.strategy simMC1.portfolio
      simMC1.market_state t =
      [mcDecision "USDC" t, mcDecision "ETH" t, mcDecision "BTC" t, mcDecision "SOL" t,
       mcDecision "MATIC" t] := by
  with_unfolding_all rfl

/-- Decision execution never reads a decision's timestamp, source asset or risk
score (they are advisory metadata), so replacing them leaves the result unchanged. -/
lemma execute_routing_metadata (sim : Simulator) (d : RoutingDecision) (t' : ℤ)
    (s' : String) (r' : ℚ) :
    Simulator.execute_routing sim
        { d with timestamp := t', source_asset := s', risk_score := r' } =
      Simulator.execute_routing sim d := by
  obtain ⟨t0, s0, ta, am, ey, rs, ec⟩ := d
  rfl

lemma mc_exec_any (sim : Simulator) (sym : String) (t : ℤ) :
    Simulator.execute_routing sim (mcDecision sym t) =
      Simulator.execute_routing sim (mcDecision sym 0) :=
  execute_routing_metadata sim (mcDecision sym 0) t "USD" (1/2)

/-- Timestamps can be pushed out of a homogeneous tranche list: executing it is
independent of the stamped time. -/
lemma execRoutingList_mc_timestamp : ∀ (syms : List String) (sim : Simulator) (t : ℤ),
    execRoutingList sim (syms.map (fun sym => mcDecision sym t)) =
      execRoutingList sim (syms.map (fun sym => mcDecision sym 0))
  | [], _, _ => rfl
  | sym :: rest, sim, t => by
    simp only [List.map]
    unfold execRoutingList
    rw [mc_exec_any]
    cases Simulator.execute_routing sim (mcDecision sym 0) with
    | error e => rfl
    | ok sim2 => exact execRoutingList_mc_timestamp rest sim2 t

/-- Executing the five 20%-tranches of the first balanced step fails at the fifth:
after four tranches and their fees the cash is 198,400 < 200,000. -/
lemma mc_chain (t : ℤ) :
    execRoutingList simMC1
      [mcDecision "USDC" t, mcDecision "ETH" t, mcDecision "BTC" t, mcDecision "SOL" t,
       mcDecision "MATIC" t] = .error "Insufficient cash for routing decision" := by
  have h0 : [mcDecision "USDC" t, mcDecision "ETH" t, mcDecision "BTC" t,
      mcDecision "SOL" t, mcDecision "MATIC" t] =
      (["USDC", "ETH", "BTC", "SOL", "MATIC"]).map (fun sym => mcDecision sym t) := rfl
  rw [h0, execRoutingList_mc_timestamp]
  with_unfolding_all rfl

/-- Every first step of a balanced 1,000,000 trial fails with insufficient cash,
independently of the random draws and timestamps: the five 20%-of-cash tranches plus
the four fees already paid exceed the remaining cash at the fifth decision
(198,400 < 200,000). -/
lemma balanced_first_step_fails (shock : String → ℚ) (t : ℤ) :
    Simulator.step simMC shock t = .error "Insufficient cash for routing decision" := by
  rw [step_error_iff, mc_after_prices, mc_decisions]
  exact mc_chain t

/-- When the next step fails, the whole remaining run fails with the same error. -/
lemma runSteps_error (shock : ℕ → String → ℚ) (t : ℕ → ℤ) (i n : ℕ) (sim : Simulator)
    (e : String) (h : Simulator.step sim (shock i) (t i) = .error e) :
    runSteps shock t i (n + 1) sim = .error e := by
  simp only [runSteps]
  rw [h]

/-- Every Monte Carlo trial fails at its first step, for all random draws. -/
lemma trial_always_fails (shock : ℕ → String → ℚ) (t : ℕ → ℤ) :
    run_single_simulation shock t = .error "Insufficient cash for routing decision" := by
  have h : runSteps shock t 0 100 (Simulator.new 1000000 Strategy.balanced) =
      .error "Insufficient cash for routing decision" := by
    show runSteps shock t 0 (99 + 1) (Simulator.new 1000000 Strategy.balanced) =
      .error "Insufficient cash for routing decision"
    exact runSteps_error shock t 0 99 simMC _ (balanced_first_step_fails (shock 0) (t 0))
  show (runSteps shock t 0 100 (Simulator.new 1000000 Strategy.balanced)).map
      Simulator.finalize_final_value = .error "Insufficient cash for routing decision"
  rw [h]
  rfl

/-- Counterexample for C3 as stated: with one iteration, the trial fails with the
insufficient-cash error, yet `run_stress_test` does not propagate it — it returns
`Ok` with the failed trial recorded as the sample `0`. -/
theorem C3_counterexample :
    run_single_simulation (fun _ _ => 0) (fun _ => 0) =
      .error "Insufficient cash for routing decision" ∧
    run_stress_test 1 (fun _ _ _ => 0) (fun _ _ => 0) = .ok [0] :=
  ⟨by with_unfolding_all rfl, by with_unfolding_all rfl⟩

/-- Claim C3 (amended): a failure inside a Monte Carlo trial is terminal for that
trial (it aborts the remaining steps of `run_single_simulation`), but it does not
propagate to the caller of `run_stress_test`: `result.unwrap_or(0.0)` silently
replaces the failed trial by the sample 0.0 and the stress test returns `Ok`.  In
fact every balanced trial fails this way, so the returned distribution is all zeros. -/
theorem C3_error_swallowed (iterations : ℕ) (shock : ℕ → ℕ → String → ℚ)
    (t : ℕ → ℕ → ℤ) :
    (∀ shock1 t1, run_single_simulation shock1 t1 =
      .error "Insufficient cash for routing decision") ∧
    run_stress_test iterations shock t = .ok (List.replicate iterations 0) := by
  refine ⟨fun shock1 t1 => trial_always_fails shock1 t1, ?_⟩
  unfold run_stress_test
  congr 1
  have hz : ∀ i : ℕ,
      (match run_single_simulation (shock i) (t i) with
        | .error _ => (0 : ℚ)
        | .ok v => v) = 0 := by
    intro i
    rw [trial_always_fails]
  calc (List.range iterations).map
        (fun i => match run_single_simulation (shock i) (t i) with
          | .error _ => (0 : ℚ)
          | .ok v => v)
      = (List.range iterations).map (fun _ => (0 : ℚ)) :=
        List.map_congr_left (fun i _ => hz i)
    _ = List.replicate iterations 0 := by
        rw [List.map_const', List.length_range]

/-- Snapshot history whose step-to-step return series is exactly
[−0.05, −0.01, 0, 0.02, 0.03] (ascending already). -/
def histC7 : List PortfolioSnapshot :=
  [ { timestamp := 0, total_value := 100, cash := 0, positions_value := 0,
      positions_count := 0 },
    { timestamp := 1, total_value := 95, cash := 0, positions_value := 0,
      positions_count := 0 },
    { timestamp := 2, total_value := 9405/100, cash := 0, positions_value := 0,
      positions_count := 0 },
    { timestamp := 3, total_value := 9405/100, cash := 0, positions_value := 0,
      positions_count := 0 },
    { timestamp := 4, total_value := 95931/1000, cash := 0, positions_value := 0,
      positions_count := 0 },
    { timestamp := 5, total_value := 9880893/100000, cash := 0, positions_value := 0,
      positions_count := 0 } ]

set_option maxRecDepth 4000 in
/-- Counterexample for C7 as stated: over the return series
[−0.05, −0.01, 0, 0.02, 0.03] at confidence 0.95 and portfolio value 100, the code
selects index 0 (return −0.05) but returns 5 — the absolute value of the selected
return scaled by the value — not the claimed "that return scaled", which would be −5. -/
theorem C7_counterexample :
    returnsOf histC7 = [-(1/20), -(1/100), 0, 1/50, 3/100] ∧
    Simulator.calculate_var histC7 100 (95/100) = 5 ∧
    ((-(1/20) : ℚ) * 100 = -5) ∧ ((5 : ℚ) ≠ -5) := by
  with_unfolding_all decide

/-- Claim C7 (amended): `calculate_var` sorts the return series ascending, indexes at
`floor((1 − confidence) × n)` and scales the ABSOLUTE VALUE of the selected return by
the current total portfolio value — hence it is non-negative for a non-negative
portfolio value, zero on an empty history, and on the series
[−0.05, −0.01, 0, 0.02, 0.03] at confidence 0.95 it selects index 0 (return −0.05)
and yields 0.05 × value. -/
theorem C7_var_scales_absolute (V : ℚ) (hV : 0 ≤ V) (history : List PortfolioSnapshot)
    (confidence : ℚ) :
    0 ≤ Simulator.calculate_var history V confidence ∧
    Simulator.calculate_var [] V confidence = 0 ∧
    Simulator.calculate_var histC7 V (95/100) = V * (1/20) := by
  refine ⟨?_, rfl, ?_⟩
  · unfold Simulator.calculate_var
    by_cases h1 : history = []
    · simp [h1]
    · by_cases h2 : returnsOf history = []
      · simp [h1, h2]
      · simp only [h1, h2, if_false]
        exact mul_nonneg hV (abs_nonneg _)
  · have h : Simulator.calculate_var histC7 V (95/100) = V * |(-(1 : ℚ)/20)| := by
      with_unfolding_all rfl
    rw [h]
    norm_num

/-- Witness for C7's amended theorem at the concrete portfolio value 100. -/
theorem C7_witness :
    0 ≤ (100 : ℚ) ∧ Simulator.calculate_var histC7 100 (95/100) = 100 * (1/20) :=
  ⟨by norm_num, (C7_var_scales_absolute 100 (by norm_num) [] 0).2.2⟩

/-- Consistent portfolio holding `posA` (cash 50, positions value 6, total 56). -/
def pW : Portfolio := { positions := [("A", posA)], cash := 50, total_value := 56 }

/-- Fresh zero-cash simulator: its step executes no decisions and succeeds. -/
def sim0 : Simulator := Simulator.new 0 .conservative

/-- State of `sim0` after one successful step. -/
def snap0 : PortfolioSnapshot :=
  { timestamp := 0, total_value := 0, cash := 0, positions_value := 0,
    positions_count := 0 }

def sim0w : Simulator :=
  { portfolio := { positions := [], cash := 0, total_value := 0 },
    strategy := .conservative, step_count := 1,
    portfolio_history := [snap0],
    market_state := [] }

/-- Witness for C5 at concrete states: the cache invariant after a removal and after
a successful simulator step. -/
theorem C5_witness :
    mapContains "A" pW.positions = true ∧
    totalValueInvariant (Portfolio.remove_position pW "A").2 ∧
    Simulator.step sim0 (fun _ => 0) 0 = .ok sim0w ∧
    totalValueInvariant sim0w.portfolio :=
  ⟨by with_unfolding_all decide,
   (C5_total_value_cache pW posA "A" [] sim0 sim0w (fun _ => 0) 0).2.2.1
     (by with_unfolding_all decide),
   by with_unfolding_all rfl,
   (C5_total_value_cache pW posA "A" [] sim0 sim0w (fun _ => 0) 0).2.2.2.2
     (by with_unfolding_all rfl)⟩

/-- The spec's drawdown example history: total values 100, 110, 121. -/
def hist8 : List PortfolioSnapshot :=
  [ { timestamp := 0, total_value := 100, cash := 0, positions_value := 0,
      positions_count := 0 },
    { timestamp := 1, total_value := 110, cash := 0, positions_value := 0,
      positions_count := 0 },
    { timestamp := 2, total_value := 121, cash := 0, positions_value := 0,
      positions_count := 0 } ]

/-- Witness for C8 on the non-decreasing history [100, 110, 121]: drawdown 0 under
both computations. -/
theorem C8_witness :
    List.Chain' (· ≤ ·) (hist8.map (fun s => s.total_value)) ∧
    Simulator.calculate_max_drawdown hist8 = 0 ∧
    RiskCalculator.max_drawdown hist8 = 0 :=
  ⟨by norm_num [hist8, List.chain'_cons],
   ((C8_max_drawdown_nonneg hist8).2.2 (by norm_num [hist8, List.chain'_cons])).1,
   ((C8_max_drawdown_nonneg hist8).2.2 (by norm_num [hist8, List.chain'_cons])).2⟩

end Vaulta
